import Mathlib

/-!
Verification development for the exiftool-vendored fork: a shallow embedding of
`src/exiftool_process.ts`, `src/WriteTask.ts` and `src/ReadTask.ts`, together
with theorems settling the frozen claims about the worker-process supervisor,
the write-reply success check and the read-side decode pipeline.

Machine strings are Lean `String`s; the JavaScript string operations the code
uses are modelled over the underlying character lists (`jsTrim`,
`jsStartsWith`, ...) so that concrete evaluations reduce in the kernel
(whitespace per `Char.isWhitespace`).  JSON values are modelled by the
inductive `JVal` below; JSON numbers are modelled as `Int` (no claim depends
on numeric values).
-/

set_option autoImplicit false

/-- A JSON-ish value, the shape of what `JSON.parse` returns.  Object entries
keep insertion order, as JavaScript objects do. -/
inductive JVal where
  | null
  | bool (b : Bool)
  | num (n : Int)
  | str (s : String)
  | arr (xs : List JVal)
  | obj (kvs : List (String × JVal))

/-- Whitespace-trimming over a character list (JavaScript
`String.prototype.trim`). -/
def jsTrimList (l : List Char) : List Char :=
  ((l.dropWhile Char.isWhitespace).reverse.dropWhile Char.isWhitespace).reverse

/-- JavaScript `s.trim()`.  (Lean's own `String.trim` is byte-loop based and
does not reduce in the kernel, so the character-list model is used.) -/
def jsTrim (s : String) : String := String.mk (jsTrimList s.data)

/-- JavaScript `s.startsWith(pre)` / regex `^pre`. -/
def jsStartsWith (s pre : String) : Bool := pre.data.isPrefixOf s.data

/-- JavaScript `s.endsWith(suf)` / regex `suf$`. -/
def jsEndsWith (s suf : String) : Bool := suf.data.isSuffixOf s.data

/-- JavaScript `s.slice(0, -n)` for `n ≤ s.length`. -/
def jsDropRight (s : String) (n : Nat) : String := String.mk (s.data.take (s.data.length - n))

/-- Occurrence of `pat` as a contiguous subsequence of `hay`. -/
def hasSubList (hay pat : List Char) : Bool :=
  if pat.isPrefixOf hay then true
  else
    match hay with
    | [] => false
    | _ :: t => hasSubList t pat

/-- Substring test: `containsSub s pat` is true when `pat` occurs inside `s`
(`pat` nonempty in every use).  Models JavaScript's `String.prototype.includes`
and unanchored regex literal search. -/
def containsSub (s pat : String) : Bool :=
  hasSubList s.data pat.data

/-- ASCII lower-casing of one character (enough for the case-insensitive
regexes, whose patterns and subject tag names are ASCII). -/
def charLower (c : Char) : Char :=
  if 'A' ≤ c ∧ c ≤ 'Z' then Char.ofNat (c.toNat + 32) else c

/-- ASCII `s.toLowerCase()`. -/
def jsLower (s : String) : String := String.mk (s.data.map charLower)

/-- JavaScript `s.split(":")` over the character list. -/
def splitColonList (l : List Char) : List (List Char) :=
  match l with
  | [] => [[]]
  | c :: t =>
    let r := splitColonList t
    if c == ':' then [] :: r
    else
      match r with
      | [] => [[c]]
      | h :: t2 => (c :: h) :: t2

/-- JavaScript `s.split(":")`. -/
def jsSplitColon (s : String) : List String := (splitColonList s.data).map String.mk

/-- JavaScript object property assignment `o[k] = v`: overwrite in place when
the key exists (keeping its position), otherwise append at the end. -/
def setProp {α : Type} (kvs : List (String × α)) (k : String) (v : α) : List (String × α) :=
  if kvs.any (fun p => p.1 == k) then
    kvs.map (fun p => if p.1 == k then (k, v) else p)
  else kvs ++ [(k, v)]

/-- JavaScript `String(x)` coercion, for the property lookups the code performs
(`String(this.#rawDegrouped?.MIMEType)`); `none` is JavaScript `undefined`.
The `arr`/`obj` branches approximate JavaScript's array/object coercions and
are never reached by the claims. -/
def jsToString : Option JVal → String
  | none => "undefined"
  | some .null => "null"
  | some (.bool true) => "true"
  | some (.bool false) => "false"
  | some (.num n) => toString n
  | some (.str s) => s
  | some (.arr _) => ""
  | some (.obj _) => "[object Object]"

/-! ## Worker Process Supervisor (`src/exiftool_process.ts`)

The supervisor owns a queue of `DeferredReader`s (pending calls) and an output
buffer; stdout chunks accumulate until the `{ready}` sentinel, stderr chunks
become warnings on the oldest pending call, and process exit rejects every
pending call.  We model the event-driven object as a state machine: a state
`PState` and a step function over the four kinds of events the Node runtime
can deliver. -/

/-- The value a reader (decode function) produces: `StringReader` yields a
trimmed string, `MetadataReader` yields the result of `JSON.parse`. -/
inductive RVal where
  | str (s : String)
  | json (v : JVal)

/-- A pending call: the `DeferredReader` of the source, carrying its decode
function, its accumulated warning lines, and an identity (`id`) so that the
single-assignment completion slot can be tracked in `PState.settled`. -/
structure PendingReader where
  id : Nat
  read : String → Except String RVal
  warnings : List String

/-- How a pending call's promise settled. -/
inductive Settled where
  | resolved (v : RVal)
  | rejected (reason : String)

/-- One line of console output (`console.log` / `console.error` /
`console.dir`), as emitted by the supervisor. -/
inductive ConsoleEntry where
  | logLine (s : String)
  | errLine (s : String)
  | dirWarnings (ws : List String)

/-- The supervisor's state.  `queue` is `this.readers`, `buff` is `this.buff`,
`ended` is `this._ended`; `settled` records each promise's (first and only)
settlement, `delivered` records each `reader.apply(buff)` invocation (which
reader received which payload text), and `console` the console output. -/
structure PState where
  ended : Bool
  buff : String
  queue : List PendingReader
  settled : List (Nat × Settled)
  delivered : List (Nat × String)
  console : List ConsoleEntry
  nextId : Nat

/-- The initial supervisor state (fresh `ExifToolProcess`, before any call). -/
def initState : PState :=
  { ended := false, buff := "", queue := [], settled := [], delivered := []
    console := [], nextId := 0 }

/-- The framing sentinel `ExifToolProcess.ready`. -/
def readyMarker : String := "\x7bready\x7d"

/-- A promise settles at most once: a second `resolve`/`reject` on an already
settled promise is a no-op (JavaScript promise semantics). -/
def settleOnce (st : List (Nat × Settled)) (i : Nat) (s : Settled) : List (Nat × Settled) :=
  if (st.lookup i).isSome then st else (i, s) :: st

/-- JavaScript `typeof result === 'object'`: true for objects, arrays and
`null` (the well-known `typeof null` quirk), false for strings, numbers and
booleans. -/
def typeofObject : RVal → Bool
  | .str _ => false
  | .json (.obj _) => true
  | .json (.arr _) => true
  | .json .null => true
  | .json _ => false

/-- `result['warnings'] = this.warnings` from `DeferredReader.apply`.  Setting
a key on a JSON object overwrites or appends; setting a property on an array
succeeds in JavaScript but is invisible in the array's JSON content, so the
JSON view is unchanged; setting a property on `null` throws a `TypeError`. -/
def attachWarnings (v : RVal) (ws : List String) : Except String RVal :=
  match v with
  | .json (.obj kvs) => .ok (.json (.obj (setProp kvs "warnings" (JVal.arr (ws.map JVal.str)))))
  | .json (.arr xs) => .ok (.json (.arr xs))
  | .json .null => .error "TypeError: cannot create property on null"
  | other => .ok other

/-- `DeferredReader.apply(input)`: run the decode function; if warnings were
accumulated, attach them when the result is a `typeof`-object, otherwise
`console.dir` them; then resolve.  An exception from the decode function (or
from the property assignment) propagates out — modelled as `.error`, in which
case the promise is NOT settled. -/
def applyReader (r : PendingReader) (input : String) : Except String (RVal × List ConsoleEntry) :=
  match r.read input with
  | .error e => .error e
  | .ok result =>
    if r.warnings.length > 0 then
      if typeofObject result then
        match attachWarnings result r.warnings with
        | .error e => .error e
        | .ok result2 => .ok (result2, [])
      else .ok (result, [.dirWarnings r.warnings])
    else .ok (result, [])

/-- `ExifToolProcess.onData`: append the chunk, trim, test for the trailing
sentinel; on a complete frame, reset the buffer, shift the oldest reader and
apply it to the text preceding the sentinel.  A decode exception propagates
out of the data handler, leaving the shifted reader unsettled. -/
def onData (st : PState) (chunk : String) : PState :=
  let buff := jsTrim (st.buff ++ chunk)
  if jsEndsWith buff readyMarker then
    let payload := jsDropRight buff readyMarker.length
    match st.queue with
    | [] =>
      { st with buff := ""
                console := st.console ++ [.errLine ("No reader for payload " ++ payload)] }
    | r :: rest =>
      let st1 := { st with buff := "", queue := rest
                           delivered := st.delivered ++ [(r.id, payload)] }
      match applyReader r payload with
      | .error _ => st1
      | .ok (v, cs) =>
        { st1 with settled := settleOnce st1.settled r.id (.resolved v)
                   console := st1.console ++ cs }
  else { st with buff := buff }

/-- `ExifToolProcess.onError`: stderr output becomes a warning on the oldest
pending call, or an operator-facing console line when none is pending. -/
def onError (st : PState) (e : String) : PState :=
  match st.queue with
  | [] => { st with console := st.console ++ [.errLine ("Error from ExifTool without any readers: " ++ e)] }
  | r :: rest => { st with queue := { r with warnings := r.warnings ++ [e] } :: rest }

/-- The `close` handler: log, reject every reader still in `this.readers`
with reason `ExifTool closed`, set `_ended`.  The code does not clear the
readers list. -/
def onClose (st : PState) : PState :=
  { st with
    console := st.console ++ [.logLine "ExifTool exited"]
    settled := st.queue.foldl (fun acc r => settleOnce acc r.id (.rejected "ExifTool closed")) st.settled
    ended := true }

/-- `ExifToolProcess.execute`: enqueue a fresh `DeferredReader` (the code has
no guard on `_ended`; the stdin write is not part of the observable state). -/
def submitCall (st : PState) (f : String → Except String RVal) : PState :=
  { st with queue := st.queue ++ [{ id := st.nextId, read := f, warnings := [] }]
            nextId := st.nextId + 1 }

/-- An event the Node runtime can deliver to the supervisor. -/
inductive Ev where
  | submit (f : String → Except String RVal)
  | data (chunk : String)
  | errData (chunk : String)
  | close

/-- One event step of the supervisor. -/
def stepEv (st : PState) : Ev → PState
  | .submit f => submitCall st f
  | .data c => onData st c
  | .errData c => onError st c
  | .close => onClose st

/-- Run the supervisor over a sequence of events. -/
def runEv (st : PState) (evs : List Ev) : PState :=
  evs.foldl stepEv st

/-! ## Write Task (`src/WriteTask.ts`) -/

/-- `successRE = /1 image files? updated/`, an unanchored search: the reply
matches exactly when it contains `1 image files updated` or
`1 image file updated` as a substring. -/
def successMatch (s : String) : Bool :=
  containsSub s "1 image files updated" || containsSub s "1 image file updated"

/-- `WriteTask.parse(data, err)`: rethrow `err`, then fail on accumulated
errors, then trim the reply and test it against `successRE`; `.ok` is the
`void` success return, `.error` carries the thrown message. -/
def writeTaskParse (errors : List String) (data : String) (err : Option String) : Except String Unit :=
  match err with
  | some e => .error e
  | none =>
    if errors.length > 0 then .error (String.intercalate ";" errors)
    else
      let d := jsTrim data
      if successMatch d then .ok ()
      else .error ("No success message: " ++ d)

/-! ## Read Task (`src/ReadTask.ts`)

The decode pipeline uses several modules of this repository that are not under
`src/` (the `GPS`, `Timezones`, `BinaryField`, `Boolean`, `ExifDate`,
`ExifTime`, `ExifDateTime`, `ErrorsAndWarnings` modules, plus Node's `path`
and the injected `geoTz` collaborator).  Those appear here as the abstract
function bundle `Externals`; the structure of `ReadTask` itself (branching,
ordering, suppression, the timezone cascade) is translated from the source.
Functions that can raise in JavaScript return `Except`; an `.error` models a
thrown exception. -/

/-- Timezone source record: resolved zone plus provenance (`Timezones.TzSrc`). -/
structure TzSrc where
  tz : String
  src : String
deriving DecidableEq

/-- The result of `parseGPSLocation` that `ReadTask` inspects: a validity flag
plus the map of corrected GPS tag values. -/
structure GPSMeta where
  invalid : Bool
  result : List (String × JVal)

/-- Modelled from the spec: the date-and-time value type of the `ExifDateTime`
module (not under `src/`).  It carries an absolute instant, an optional
display zone, and whether the zone was inferred rather than explicit in the
source text. -/
structure ExifDateTime where
  instant : Int
  zone : Option String
  inferredZone : Bool
deriving DecidableEq

/-- Modelled from the spec: `ExifDateTime.setZone` "preserves the absolute
instant, changes only the display zone". -/
def ExifDateTime.setZone (dt : ExifDateTime) (z : String) : ExifDateTime :=
  { dt with zone := some z }

/-- Opaque time-only value (`ExifTime`, not under `src/`). -/
structure ExifTime where
  raw : String
deriving DecidableEq

/-- Opaque date-only value (`ExifDate`, not under `src/`). -/
structure ExifDate where
  raw : String
deriving DecidableEq

/-- Opaque binary-blob placeholder (`BinaryField`, not under `src/`). -/
structure BinaryField where
  raw : String
deriving DecidableEq

/-- A decoded tag value, the result of `ReadTask.#parseTag`.  `raw` is a value
passed through unchanged (pass-through tags, unparsed scalars, substituted GPS
values); arrays and objects hold per-element results, which can be `none`
(JavaScript `undefined`) for null-ish elements. -/
inductive PVal where
  | raw (v : JVal)
  | binary (b : BinaryField)
  | boolean (b : Bool)
  | dateTime (dt : ExifDateTime)
  | time (t : ExifTime)
  | date (d : ExifDate)
  | arr (xs : List (Option PVal))
  | obj (kvs : List (String × Option PVal))

/-- The `ReadTask` options the modeled code paths consult.  (`geoTz`, a
function-valued option, lives in `Externals`.) -/
structure ROptions where
  backfillTimezones : Bool
  defaultVideosToUTC : Bool
  preferTimezoneInferenceFromGps : Bool
deriving DecidableEq

/-- The external collaborators of `ReadTask` — repository modules not under
`src/` plus Node built-ins and the injected coordinate-to-zone lookup.  Each
field abstracts the named function; `Except` results model functions that can
throw. -/
structure Externals where
  parseGPSLocation : List (String × JVal) → ROptions → Option GPSMeta
  normalizeZone : Option JVal → Option String
  geoTz : JVal → JVal → Except String JVal
  extractTzOffsetFromTags : List (String × JVal) → ROptions → Option TzSrc
  extractTzOffsetFromDatestamps : List (String × JVal) → ROptions → Option TzSrc
  extractTzOffsetFromUTCOffset : List (String × JVal) → Option TzSrc
  extractTzOffsetFromTimeStamp : List (String × JVal) → ROptions → Option TzSrc
  binaryFromRawValue : String → Except String (Option BinaryField)
  toBoolean : String → Except String (Option Bool)
  exifDateTimeFrom : String → Option String → Except String (Option ExifDateTime)
  exifTimeFromEXIF : String → Option String → Except String (Option ExifTime)
  exifDateFrom : String → Except String (Option ExifDate)
  errorsAndWarnings : List String → List String → List (String × PVal) → List String × List String
  pathResolve : String → String

/-- `NullIsh = ["undef", "null", "undefined"]`. -/
def NullIsh : List String := ["undef", "null", "undefined"]

/-- `nullish(s)`: `s == null || (isString(s) && NullIsh.includes(s.trim()))`.
Note the `includes` test is case-sensitive. -/
def nullish : JVal → Bool
  | .null => true
  | .str s => NullIsh.contains (jsTrim s)
  | _ => false

/-- The `PassthroughTags` allow-list. -/
def PassthroughTags : List String :=
  ["ExifToolVersion", "DateStampMode", "Sharpness", "Firmware", "DateDisplayFormat"]

/-- `MaybeDateOrTimeRe = /when|date|time|subsec|creat|modif/i`. -/
def maybeDateOrTime (k : String) : Bool :=
  let l := jsLower k
  containsSub l "when" || containsSub l "date" || containsSub l "time" ||
    containsSub l "subsec" || containsSub l "creat" || containsSub l "modif"

/-- `/subsec|time/i.test(tagName)`. -/
def includesTime (k : String) : Bool :=
  containsSub (jsLower k) "subsec" || containsSub (jsLower k) "time"

/-- `/date/i.test(tagName)`. -/
def includesDate (k : String) : Bool :=
  containsSub (jsLower k) "date"

/-- `/when/i.test(tagName)`. -/
def includesWhen (k : String) : Bool :=
  containsSub (jsLower k) "when"

/-- Modelled from the spec: `OnlyZerosRE` (module not under `src/`) matches
"an all-zero numeric string (e.g. \"00\")". -/
def onlyZeros (s : String) : Bool :=
  s.data.length > 0 && s.data.all (fun c => c == '0')

/-- `isUtcTagName`: the tag name contains `UTC` or starts with `GPS`. -/
def isUtcTagName (tagName : String) : Bool :=
  containsSub tagName "UTC" || jsStartsWith tagName "GPS"

/-- `ReadTask.#tagName`: with degrouping, `k.split(":")[1] ?? k`. -/
def tagNameOf (degroup : Bool) (k : String) : String :=
  if degroup then
    match jsSplitColon k with
    | _ :: second :: _ => second
    | _ => k
  else k

/-- Building `this.#rawDegrouped` from `this.#raw` under `-G`: a fresh object
assigned entry by entry (later duplicate degrouped keys overwrite earlier). -/
def degroupEntries (raw : List (String × JVal)) : List (String × JVal) :=
  raw.foldl (fun acc kv => setProp acc (tagNameOf true kv.1) kv.2) []

/-- `ReadTask.#isVideo`: `String(this.#rawDegrouped?.MIMEType).startsWith("video/")`. -/
def isVideo (rawD : List (String × JVal)) : Bool :=
  jsStartsWith (jsToString (rawD.lookup "MIMEType")) "video/"

/-- `ReadTask.#defaultToUTC`: video file and `defaultVideosToUTC` set. -/
def defaultToUTCFlag (opts : ROptions) (rawD : List (String × JVal)) : Bool :=
  isVideo rawD && opts.defaultVideosToUTC

/-- `ReadTask.#extractTzOffsetFromGps`, returning the memoized value plus the
warnings its (single) evaluation pushes: invalid or missing coordinates yield
nothing; a valid `GeolocationTimeZone` wins; otherwise the injected `geoTz`
lookup, whose exception is downgraded to a warning. -/
def extractTzOffsetFromGps (E : Externals) (opts : ROptions)
    (rawD : List (String × JVal)) : Option TzSrc × List String :=
  match E.parseGPSLocation rawD opts with
  | none => (none, [])
  | some g =>
    let lat := g.result.lookup "GPSLatitude"
    let lon := g.result.lookup "GPSLongitude"
    if g.invalid || lat.isNone || lon.isNone then (none, [])
    else
      match E.normalizeZone (rawD.lookup "GeolocationTimeZone") with
      | some tzName => (some { tz := tzName, src := "GeolocationTimeZone" }, [])
      | none =>
        match lat, lon with
        | some la, some lo =>
          (match E.geoTz la lo with
           | .ok gz =>
             match E.normalizeZone (some gz) with
             | some zn => (some { tz := zn, src := "GPSLatitude/GPSLongitude" }, [])
             | none => (none, [])
           | .error e => (none, ["Failed to determine timezone from GPS coordinates: " ++ e]))
        | _, _ => (none, [])

/-- The `??`-chain of `ReadTask.#extractTzOffset` after the optional
GPS-preference head: explicit tags, then GPS (forcing the lazy GPS extraction,
hence emitting its warnings, only when reached), then datestamp inference,
then the videos-default, then the two last-ditch heuristics.  `gps` is the
memoized GPS extraction; `forced` records whether the GPS-preference head has
already forced it (its warnings then are already accounted for). -/
def extractTzOffsetRest (E : Externals) (opts : ROptions) (rawD : List (String × JVal))
    (gps : Option TzSrc × List String) (forced : Bool) : Option TzSrc × List String :=
  let w0 := if forced then gps.2 else []
  match E.extractTzOffsetFromTags rawD opts with
  | some r => (some r, w0)
  | none =>
    let w1 := gps.2
    match gps.1 with
    | some r => (some r, w1)
    | none =>
      match E.extractTzOffsetFromDatestamps rawD opts with
      | some r => (some r, w1)
      | none =>
        if defaultToUTCFlag opts rawD then (some { tz := "UTC", src := "defaultVideosToUTC" }, w1)
        else
          match E.extractTzOffsetFromUTCOffset rawD with
          | some r => (some r, w1)
          | none =>
            match E.extractTzOffsetFromTimeStamp rawD opts with
            | some r => (some r, w1)
            | none => (none, w1)

/-- `ReadTask.#extractTzOffset`: when `preferTimezoneInferenceFromGps` is set,
the GPS head is tried first and short-circuits on success; otherwise the
fixed chain runs with explicit tags first. -/
def extractTzOffset (E : Externals) (opts : ROptions)
    (rawD : List (String × JVal)) : Option TzSrc × List String :=
  let gps := extractTzOffsetFromGps E opts rawD
  if opts.preferTimezoneInferenceFromGps then
    match gps with
    | (some r, w) => (some r, w)
    | (none, w) => extractTzOffsetRest E opts rawD (none, w) true
  else extractTzOffsetRest E opts rawD gps false

/-- The per-task context that `ReadTask.#parseTag` consults: options, the
memoized GPS extraction (validity flag and substituted results), the memoized
cascade zone `this.#tz()`, and `this.#defaultToUTC()`.  Per the source, all of
these are lazily computed pure functions of the raw record plus the options,
forced before the tag loop runs. -/
structure RCtx where
  E : Externals
  opts : ROptions
  gpsInvalid : Bool
  gpsResults : List (String × JVal)
  tzVal : Option String
  defUTC : Bool

/-- The string-leaf portion of `ReadTask.#parseTag` (inside the `try`):
binary-marker test, `Valid$` boolean test, then the date/time chain with
timezone attachment and the backfill correction; `.error` is an exception
escaping to `#parseTag`'s catch. -/
def parseStringLeaf (c : RCtx) (tagName : String) (s : String) : Except String (Option PVal) :=
  match c.E.binaryFromRawValue s with
  | .error e => .error e
  | .ok (some b) => .ok (some (.binary b))
  | .ok none =>
    match (if jsEndsWith tagName "Valid" then c.E.toBoolean s else .ok none) with
    | .error e => .error e
    | .ok (some b) => .ok (some (.boolean b))
    | .ok none =>
      if maybeDateOrTime tagName && !(onlyZeros s) then
        let tz : Option String :=
          if isUtcTagName tagName || c.defUTC then some "UTC"
          else if c.opts.backfillTimezones then c.tzVal
          else none
        let kTime := includesTime tagName
        let kDate := includesDate tagName
        let kWhen := includesWhen tagName
        match (if kTime || kDate || kWhen then c.E.exifDateTimeFrom s tz else .ok none) with
        | .error e => .error e
        | .ok (some dt) =>
          match c.tzVal with
          | some z =>
            if c.opts.backfillTimezones && c.defUTC && !isUtcTagName tagName
                && dt.inferredZone then
              .ok (some (.dateTime (dt.setZone z)))
            else .ok (some (.dateTime dt))
          | none => .ok (some (.dateTime dt))
        | .ok none =>
          match (if kTime || kWhen then c.E.exifTimeFromEXIF s tz else .ok none) with
          | .error e => .error e
          | .ok (some t) => .ok (some (.time t))
          | .ok none =>
            match (if kDate || kWhen then c.E.exifDateFrom s else .ok none) with
            | .error e => .error e
            | .ok (some d) => .ok (some (.date d))
            | .ok none => .ok (some (.raw (.str s)))
      else .ok (some (.raw (.str s)))

mutual

/-- The catch-message of `ReadTask.#parseTag` uses `JSON.stringify(value)`;
string escaping is elided. -/
def jsonStringify : JVal → String
  | .null => "null"
  | .bool true => "true"
  | .bool false => "false"
  | .num n => toString n
  | .str s => "\"" ++ s ++ "\""
  | .arr xs => "[" ++ jsonStringifyList xs ++ "]"
  | .obj kvs => "\x7b" ++ jsonStringifyObj kvs ++ "\x7d"

/-- Comma-joined stringification of array elements. -/
def jsonStringifyList : List JVal → String
  | [] => ""
  | [x] => jsonStringify x
  | x :: xs => jsonStringify x ++ "," ++ jsonStringifyList xs

/-- Comma-joined stringification of object entries. -/
def jsonStringifyObj : List (String × JVal) → String
  | [] => ""
  | [(k, x)] => "\"" ++ k ++ "\":" ++ jsonStringify x
  | (k, x) :: xs => "\"" ++ k ++ "\":" ++ jsonStringify x ++ "," ++ jsonStringifyObj xs

end

/-- The catch block of `ReadTask.#parseTag` around the string-leaf logic: an
exception is recorded as a warning naming the tag and raw value, and the raw
value is kept. -/
def caughtLeaf (tagName s : String) (w : List String) :
    Except String (Option PVal) → Option PVal × List String
  | .ok r => (r, w)
  | .error e =>
    (some (.raw (.str s)),
     w ++ ["Failed to parse " ++ tagName ++ " with value " ++ jsonStringify (.str s) ++ ": " ++ e])

/-- The GPS substitution step of `ReadTask.#parseTag`: for `GPS*` /
`Geolocation*` names, `const parsed = this.#gpsResults()[tagName]`, returned
only when non-null (`parsed != null` also rejects a JSON `null`). -/
def gpsSubstituted (c : RCtx) (tagName : String) : Option JVal :=
  if jsStartsWith tagName "GPS" || jsStartsWith tagName "Geolocation" then
    match c.gpsResults.lookup tagName with
    | some .null => none
    | some other => some other
    | none => none
  else none

mutual

/-- `ReadTask.#parseTag`: null-ish suppression, then (inside a `try` whose
catch records a warning and keeps the raw value) the pass-through allow-list,
the GPS suppression/substitution, recursive descent into arrays and objects,
and the string-leaf logic.  Warnings are threaded as explicit state. -/
def parseTag (c : RCtx) (tagName : String) (v : JVal) (w : List String) :
    Option PVal × List String :=
  if nullish v then (none, w)
  else if PassthroughTags.contains tagName then (some (.raw v), w)
  else if (jsStartsWith tagName "GPS" || jsStartsWith tagName "Geolocation") && c.gpsInvalid then
    (none, w)
  else
    (gpsSubstituted c tagName).elim
      (match v with
       | .arr xs =>
         let r := parseTagList c tagName xs w
         (some (.arr r.1), r.2)
       | .obj kvs =>
         let r := parseTagObj c tagName kvs w
         (some (.obj r.1), r.2)
       | .str s => caughtLeaf tagName s w (parseStringLeaf c tagName s)
       | other => (some (.raw other), w))
      (fun parsed => (some (.raw parsed), w))

/-- `value.map((ea) => this.#parseTag(tagName, ea))` with warning threading. -/
def parseTagList (c : RCtx) (tagName : String) (vs : List JVal) (w : List String) :
    List (Option PVal) × List String :=
  match vs with
  | [] => ([], w)
  | x :: xs =>
    let r := parseTag c tagName x w
    let rs := parseTagList c tagName xs r.2
    (r.1 :: rs.1, rs.2)

/-- The nested-object branch: each entry parsed under the dotted name
`tagName + "." + k`. -/
def parseTagObj (c : RCtx) (tagName : String) (kvs : List (String × JVal)) (w : List String) :
    List (String × Option PVal) × List String :=
  match kvs with
  | [] => ([], w)
  | (k, x) :: xs =>
    let r := parseTag c (tagName ++ "." ++ k) x w
    let rs := parseTagObj c tagName xs r.2
    ((k, r.1) :: rs.1, rs.2)

end

/-- The decoded Tag Record.  The special members that `ReadTask` handles
outside the tag loop (`SourceFile`, `errors`, `warnings`, `tz`, `tzSource`)
are distinguished fields; `tags` holds the per-tag results in insertion
order, keyed by the (possibly group-qualified) raw key. -/
structure TagsRecord where
  sourceFile : String
  errors : List String
  warnings : List String
  tz : Option String
  tzSource : Option String
  tags : List (String × PVal)

/-- One iteration of the tag loop of `ReadTask.#parseTags`: parse under the
degrouped name, assign under the raw key only when the value is non-null. -/
def tagsStep (c : RCtx) (degroup : Bool) (acc : List (String × PVal) × List String)
    (kv : String × JVal) : List (String × PVal) × List String :=
  let r := parseTag c (tagNameOf degroup kv.1) kv.2 acc.2
  (r.1.elim acc.1 (fun v => setProp acc.1 kv.1 v), r.2)

/-- The per-task context of `ReadTask.#parseTags`: per the source's lazy
fields, the GPS metadata (`#gpsIsInvalid` / `#gpsResults`), the cascade zone
`#tz()` and `#defaultToUTC()` are pure functions of the degrouped raw record
and the options, forced before the tag loop. -/
def mkRCtx (E : Externals) (opts : ROptions) (rawD : List (String × JVal)) : RCtx :=
  let gpsMeta := E.parseGPSLocation rawD opts
  let gpsInvalid := (gpsMeta.map (fun m => m.invalid)).getD false
  { E := E, opts := opts
    gpsInvalid := gpsInvalid
    gpsResults := if gpsInvalid then [] else (gpsMeta.map (fun m => m.result)).getD []
    tzVal := (extractTzOffset E opts rawD).1.map (fun t => t.tz)
    defUTC := defaultToUTCFlag opts rawD }

/-- `ReadTask.#parseTags`: degroup when `-G` was passed, force the GPS
extraction, then the timezone cascade (whose single evaluation contributes
its warnings), run the tag loop, and merge the accumulated errors and
warnings. -/
def parseTags (E : Externals) (opts : ROptions) (degroup : Bool) (sourceFile : String)
    (taskErrors : List String) (raw : List (String × JVal)) : TagsRecord :=
  let rawD := if degroup then degroupEntries raw else raw
  let tzr := extractTzOffset E opts rawD
  let folded := raw.foldl (tagsStep (mkRCtx E opts rawD) degroup) ([], tzr.2)
  let ew := E.errorsAndWarnings taskErrors folded.2 folded.1
  { sourceFile := sourceFile
    errors := ew.1
    warnings := ew.2
    tz := tzr.1.map (fun t => t.tz)
    tzSource := tzr.1.map (fun t => t.src)
    tags := folded.1 }

/-- JavaScript `x[0]` on the result of `JSON.parse`: first element of an
array (`none` = `undefined` when empty), first character of a string,
`undefined` on numbers and booleans, a `TypeError` on `null`.  An `.error`
from the parse itself or from the indexing lands in the `catch` block of
`ReadTask.parse`. -/
def jsonIndexZero : Except String JVal → Except String (Option JVal)
  | .error e => .error e
  | .ok .null => .error "TypeError: cannot index null"
  | .ok (.arr []) => .ok none
  | .ok (.arr (x :: _)) => .ok (some x)
  | .ok (.str s) => .ok (if s.data.isEmpty then none else some (.str (String.mk (s.data.take 1))))
  | .ok _ => .ok none

/-- JavaScript property access `raw.SourceFile`: `TypeError` on `null`,
object lookup on objects, `undefined` otherwise. -/
def propAccess : JVal → String → Except String (Option JVal)
  | .null, _ => .error "TypeError: cannot read property of null"
  | .obj kvs, k => .ok (kvs.lookup k)
  | _, _ => .ok none

/-- Node's `path.resolve` applied to a property value: resolves strings via
the abstract `pathResolve`, throws a `TypeError` on `undefined` and every
non-string. -/
def resolveJ (E : Externals) : Option JVal → Except String String
  | some (.str s) => .ok (E.pathResolve s)
  | _ => .error "TypeError: path must be a string"

/-- `Object.entries(raw)` as used by the tag loop; `ReadTask.parse` only
reaches the loop when `raw` is an object (any other shape has no
`SourceFile` property and already failed the integrity check). -/
def jvalEntries : JVal → List (String × JVal)
  | .obj kvs => kvs
  | _ => []

/-- `ReadTask.parse(data, err)`: `this.#raw = JSON.parse(data)[0]` inside a
`try` whose catch rethrows `err ?? jsonError`; then the `SourceFile`
integrity check — resolve the reply's declared `SourceFile` and throw (never
warn) unless it equals the requested path; then `#parseTags`.  `jsonData` is
the outcome of `JSON.parse(data)` (a Node built-in, abstracted), `err` the
optional upstream error. -/
def readTaskParse (E : Externals) (opts : ROptions) (degroup : Bool) (sourceFile : String)
    (taskErrors : List String) (jsonData : Except String JVal) (err : Option String) :
    Except String TagsRecord :=
  match jsonIndexZero jsonData with
  | .error jsonError => .error (err.getD jsonError)
  | .ok none => .error "TypeError: cannot read property of undefined"
  | .ok (some raw) =>
    match propAccess raw "SourceFile" with
    | .error e => .error e
    | .ok sf =>
      match resolveJ E sf with
      | .error e => .error e
      | .ok resolved =>
        if resolved ≠ sourceFile then
          .error ("Internal error: unexpected SourceFile of " ++ jsToString sf ++
            " for file " ++ sourceFile)
        else .ok (parseTags E opts degroup sourceFile taskErrors (jvalEntries raw))

/-- `ReadTask.for` resolves the requested filename before constructing the
task; the task's `sourceFile` is that resolved path. -/
def readTaskSourceFile (E : Externals) (filename : String) : String :=
  E.pathResolve filename

/-- Modelled from the spec: a trivial instantiation of the external
collaborators (the GPS, timezone-heuristic, value-codec and errors/warnings
modules that are not under `src/`), used to evaluate claims on concrete
inputs.  Every lookup and codec yields "nothing", consistent with the spec's
description of those modules on the inputs the concrete theorems use (e.g. a
plain word is not a binary-marker string and carries no timezone). -/
def trivialExternals : Externals :=
  { parseGPSLocation := fun _ _ => none
    normalizeZone := fun _ => none
    geoTz := fun _ _ => .error "no geoTz collaborator"
    extractTzOffsetFromTags := fun _ _ => none
    extractTzOffsetFromDatestamps := fun _ _ => none
    extractTzOffsetFromUTCOffset := fun _ => none
    extractTzOffsetFromTimeStamp := fun _ _ => none
    binaryFromRawValue := fun _ => .ok none
    toBoolean := fun _ => .ok none
    exifDateTimeFrom := fun _ _ => .ok none
    exifTimeFromEXIF := fun _ _ => .ok none
    exifDateFrom := fun _ => .ok none
    errorsAndWarnings := fun es ws _ => (es, ws)
    pathResolve := fun s => s }

/-! ## Auxiliary definitions for the theorems -/

/-- The supervisor invariant maintained while the process is alive (no close
event yet): pending ids are distinct, all issued ids are below `nextId`, and
no pending call has settled. -/
def PInv (st : PState) : Prop :=
  (st.queue.map (fun r => r.id)).Nodup
  ∧ (∀ r ∈ st.queue, r.id < st.nextId)
  ∧ (∀ p ∈ st.settled, p.1 < st.nextId)
  ∧ (∀ r ∈ st.queue, st.settled.lookup r.id = none)

/-- `StringReader`: trims the payload (used by the `-ver` call). -/
def stringReader : String → Except String RVal :=
  fun s => .ok (.str (jsTrim s))

/-- `MetadataReader` applied to a payload that is not valid JSON:
`JSON.parse` raises a `SyntaxError`. -/
def throwingReader : String → Except String RVal :=
  fun _ => .error "SyntaxError: Unexpected token"

/-- The failing scenario for the decode-exception analysis: one pending
metadata call, then a complete frame whose payload is not valid JSON. -/
def c4trace : List Ev :=
  [.submit throwingReader, .data "not-json\x7bready\x7d"]

/-- Modelled from the spec: external collaborators for the cascade-precedence
scenario — the raw bag carries an explicit timezone-bearing tag (resolved by
`extractTzOffsetFromTags` to `Asia/Seoul`) and valid GPS coordinates whose
`GeolocationTimeZone` normalizes to `Zone/G`. -/
def c7Externals : Externals :=
  { trivialExternals with
    parseGPSLocation := fun _ _ =>
      some { invalid := false
             result := [("GPSLatitude", .num 37), ("GPSLongitude", .num 127)] }
    normalizeZone := fun v =>
      match v with
      | some (.str "Zone/G") => some "Zone/G"
      | _ => none
    extractTzOffsetFromTags := fun _ _ => some { tz := "Asia/Seoul", src := "OffsetTimeOriginal" } }

/-- The raw record for the cascade-precedence scenario. -/
def c7raw : List (String × JVal) :=
  [("OffsetTimeOriginal", .str "+09:00"), ("GeolocationTimeZone", .str "Zone/G")]

/-- Modelled from the spec: external collaborators for the backfill scenario —
an explicit offset tag resolving to `Asia/Tokyo`, and an `ExifDateTime`
decoder that parses the zoneless stamp `2020:01:01 10:00:00` in whatever zone
it is given, marking the zone as inferred (as the spec describes for zoneless
source text). -/
def c9Externals : Externals :=
  { trivialExternals with
    extractTzOffsetFromTags := fun _ _ => some { tz := "Asia/Tokyo", src := "OffsetTimeOriginal" }
    exifDateTimeFrom := fun s tz =>
      if s = "2020:01:01 10:00:00" then
        .ok (some { instant := 0, zone := tz, inferredZone := true })
      else .ok none }

/-- The raw record for the backfill scenario: a video file with a zoneless
creation stamp. -/
def c9raw : List (String × JVal) :=
  [("MIMEType", .str "video/mp4"), ("CreateDate", .str "2020:01:01 10:00:00")]

/-- Modelled from the spec: external collaborators whose GPS extraction flags
the coordinates invalid (the all-zero lat/lon sentinel of the domain rule). -/
def gpsInvalidExternals : Externals :=
  { trivialExternals with
    parseGPSLocation := fun _ _ => some { invalid := true, result := [] } }

/-- Concrete supervisor state for witnesses: one pending string call, a
partial buffer. -/
def wState1 : PState :=
  { initState with queue := [{ id := 0, read := stringReader, warnings := [] }]
                   buff := "par", nextId := 1 }

/-- Concrete supervisor state for witnesses: one pending string call, buffer
about to complete a frame. -/
def wState2 : PState :=
  { initState with queue := [{ id := 0, read := stringReader, warnings := [] }]
                   buff := "x", nextId := 1 }

/-- A decode function that yields a JSON object for the payload `obj` and the
payload string otherwise (a concrete decode function for witnesses). -/
def objReader : String → Except String RVal :=
  fun s => if s = "obj" then .ok (.json (.obj [("a", .num 1)])) else .ok (.str s)

/-! ## Helper lemmas -/

set_option maxHeartbeats 1000000 in
theorem parseTag_str (c : RCtx) (t s : String) (w : List String) :
    parseTag c t (.str s) w =
      (if nullish (.str s) then (none, w)
       else if PassthroughTags.contains t then (some (.raw (.str s)), w)
       else if (jsStartsWith t "GPS" || jsStartsWith t "Geolocation") && c.gpsInvalid then (none, w)
       else
         (gpsSubstituted c t).elim (caughtLeaf t s w (parseStringLeaf c t s))
           (fun parsed => (some (.raw parsed), w))) := by
  unfold parseTag
  rfl

theorem parseTag_nullish (c : RCtx) (t : String) (v : JVal) (w : List String)
    (h : nullish v = true) : parseTag c t v w = (none, w) := by
  unfold parseTag
  simp [h]

theorem gps_not_passthrough (t : String)
    (h : jsStartsWith t "GPS" = true ∨ jsStartsWith t "Geolocation" = true) :
    PassthroughTags.contains t = false := by
  by_contra hc
  have hb : PassthroughTags.contains t = true := by
    cases hcc : PassthroughTags.contains t
    · exact absurd hcc hc
    · rfl
  have hmem : t ∈ PassthroughTags := by
    simpa [List.contains] using List.mem_of_elem_eq_true hb
  simp only [PassthroughTags, List.mem_cons, List.not_mem_nil, or_false] at hmem
  rcases hmem with rfl | rfl | rfl | rfl | rfl
  all_goals revert h
  all_goals decide

theorem parseTag_gps_invalid (c : RCtx) (t : String) (v : JVal) (w : List String)
    (hinv : c.gpsInvalid = true)
    (ht : jsStartsWith t "GPS" = true ∨ jsStartsWith t "Geolocation" = true) :
    parseTag c t v w = (none, w) := by
  unfold parseTag
  have hp := gps_not_passthrough t ht
  have hcond : ((jsStartsWith t "GPS" || jsStartsWith t "Geolocation") && c.gpsInvalid) = true := by
    rcases ht with h | h <;> simp [h, hinv]
  by_cases hn : nullish v
  · simp [hn]
  · rw [if_neg hn]
    have h2 : ¬(PassthroughTags.contains t = true) := by
      intro hc
      rw [hp] at hc
      exact Bool.false_ne_true hc
    rw [if_neg h2, if_pos hcond]

theorem fst_mem_setProp {α : Type} (l : List (String × α)) (k : String) (v : α)
    (p : String × α) (hp : p ∈ setProp l k v) : p.1 = k ∨ p.1 ∈ l.map Prod.fst := by
  unfold setProp at hp
  split at hp
  · rcases List.mem_map.1 hp with ⟨q, hq, hpq⟩
    by_cases hqk : q.1 == k
    · rw [if_pos hqk] at hpq
      left
      rw [← hpq]
    · rw [if_neg hqk] at hpq
      right
      rw [← hpq]
      exact List.mem_map_of_mem Prod.fst hq
  · rcases List.mem_append.1 hp with h | h
    · right
      exact List.mem_map_of_mem Prod.fst h
    · left
      rw [List.mem_singleton.1 h]

theorem tagsStep_fold_prop (c : RCtx) (degroup : Bool) (Q : String → Prop)
    (entries : List (String × JVal)) :
    ∀ (acc : List (String × PVal)) (w : List String),
    (∀ p ∈ acc, Q p.1) →
    (∀ kv ∈ entries,
      (∀ w', (parseTag c (tagNameOf degroup kv.1) kv.2 w').1 = none) ∨ Q kv.1) →
    ∀ p ∈ (entries.foldl (tagsStep c degroup) (acc, w)).1, Q p.1 := by
  induction entries with
  | nil => intro acc w hacc _ p hp; exact hacc p hp
  | cons kv tl ih =>
    intro acc w hacc hent
    simp only [List.foldl_cons]
    rcases hent kv (List.mem_cons_self kv tl) with hnone | hq
    · have hstep : tagsStep c degroup (acc, w) kv = (acc, (parseTag c (tagNameOf degroup kv.1) kv.2 w).2) := by
        simp only [tagsStep, hnone w, Option.elim]
      rw [hstep]
      exact ih acc _ hacc (fun kv' h' => hent kv' (List.mem_cons_of_mem kv h'))
    · cases hres : (parseTag c (tagNameOf degroup kv.1) kv.2 w).1 with
      | none =>
        have hstep : tagsStep c degroup (acc, w) kv = (acc, (parseTag c (tagNameOf degroup kv.1) kv.2 w).2) := by
          simp only [tagsStep, hres, Option.elim]
        rw [hstep]
        exact ih acc _ hacc (fun kv' h' => hent kv' (List.mem_cons_of_mem kv h'))
      | some v =>
        have hstep : tagsStep c degroup (acc, w) kv =
            (setProp acc kv.1 v, (parseTag c (tagNameOf degroup kv.1) kv.2 w).2) := by
          simp only [tagsStep, hres, Option.elim]
        rw [hstep]
        refine ih _ _ ?_ (fun kv' h' => hent kv' (List.mem_cons_of_mem kv h'))
        intro p hp
        rcases fst_mem_setProp acc kv.1 v p hp with h | h
        · rw [h]; exact hq
        · rcases List.mem_map.1 h with ⟨q, hqmem, hqeq⟩
          rw [← hqeq]
          exact hacc q hqmem

theorem nodup_keys_unique {α β : Type} (l : List (α × β))
    (h : (l.map Prod.fst).Nodup) (k : α) (a b : β)
    (ha : (k, a) ∈ l) (hb : (k, b) ∈ l) : a = b := by
  induction l with
  | nil => exact absurd ha (List.not_mem_nil _)
  | cons x xs ih =>
    rw [List.map_cons, List.nodup_cons] at h
    rcases List.mem_cons.1 ha with ha1 | ha1 <;> rcases List.mem_cons.1 hb with hb1 | hb1
    · have hab : (k, a) = (k, b) := ha1.trans hb1.symm
      simpa using hab
    · exfalso
      apply h.1
      have hk : k ∈ xs.map Prod.fst := List.mem_map_of_mem Prod.fst hb1
      rw [← ha1]
      exact hk
    · exfalso
      apply h.1
      have hk : k ∈ xs.map Prod.fst := List.mem_map_of_mem Prod.fst ha1
      rw [← hb1]
      exact hk
    · exact ih h.2 ha1 hb1

/-! ## Claims -/

/-- C5 (counterexample): the claim predicates success on the "N image files
updated" pattern with any N ≥ 1, but `successRE` is the literal
`/1 image files? updated/`: the reply `2 image files updated` (N = 2, no
accumulated errors, no upstream error) is rejected by `WriteTask.parse`. -/
theorem claim5_write_success_counterexample :
    writeTaskParse [] "2 image files updated" none
      = .error "No success message: 2 image files updated" := by
  rfl

/-- C5 (amended): a Write Task's parse succeeds exactly when there is no
upstream error, the accumulated error list is empty, and the trimmed reply
contains `1 image files updated` or `1 image file updated` (the fixed N = 1
pattern, matched unanchored) as a substring; any other reply fails with an
error carrying the reply text. -/
theorem claim5_write_success_amended (errors : List String) (data : String) (err : Option String) :
    writeTaskParse errors data err = .ok () ↔
      err = none ∧ errors = [] ∧ successMatch (jsTrim data) = true := by
  cases err with
  | some e => simp [writeTaskParse]
  | none =>
    cases errors with
    | nil =>
      by_cases h : successMatch (jsTrim data)
      · simp [writeTaskParse, h]
      · simp [writeTaskParse, h]
    | cons a as => simp [writeTaskParse]

/-- C5 (witness): `1 image files updated` with no errors succeeds. -/
theorem claim5_write_success_amended_witness :
    writeTaskParse [] "1 image files updated" none = .ok () :=
  (claim5_write_success_amended [] "1 image files updated" none).mpr
    ⟨rfl, rfl, by decide⟩

/-- C7: the timezone cascade tries its sources in the fixed order and
short-circuits at the first success.  With `preferTimezoneInferenceFromGps`
disabled, an explicit timezone-bearing tag (a non-null
`extractTzOffsetFromTags` result) wins even when the GPS derivation would
also yield a zone; with it enabled, the GPS derivation is tried first and
wins whenever it yields a zone. -/
theorem claim7_tz_cascade_precedence (E : Externals) (opts : ROptions)
    (rawD : List (String × JVal)) :
    (opts.preferTimezoneInferenceFromGps = false →
      ∀ r g wg, E.extractTzOffsetFromTags rawD opts = some r →
        extractTzOffsetFromGps E opts rawD = (some g, wg) →
        (extractTzOffset E opts rawD).1 = some r)
    ∧ (opts.preferTimezoneInferenceFromGps = true →
      ∀ g wg, extractTzOffsetFromGps E opts rawD = (some g, wg) →
        (extractTzOffset E opts rawD).1 = some g) := by
  constructor
  · intro hp r g wg hTags _hGps
    unfold extractTzOffset
    simp only [hp, Bool.false_eq_true, if_false]
    unfold extractTzOffsetRest
    simp [hTags]
  · intro hp g wg hGps
    unfold extractTzOffset
    simp [hp, hGps]

/-- C7 (witness): with the concrete collaborators of `c7Externals` (explicit
offset tag resolving to `Asia/Seoul`, valid GPS resolving to `Zone/G`), the
cascade resolves to the explicit-tag source when the GPS preference is off
and to the GPS source when it is on. -/
theorem claim7_tz_cascade_precedence_witness :
    (extractTzOffset c7Externals ⟨true, true, false⟩ c7raw).1
        = some { tz := "Asia/Seoul", src := "OffsetTimeOriginal" }
    ∧ (extractTzOffset c7Externals ⟨true, true, true⟩ c7raw).1
        = some { tz := "Zone/G", src := "GeolocationTimeZone" } :=
  ⟨(claim7_tz_cascade_precedence c7Externals ⟨true, true, false⟩ c7raw).1 rfl
      { tz := "Asia/Seoul", src := "OffsetTimeOriginal" }
      { tz := "Zone/G", src := "GeolocationTimeZone" } [] rfl rfl,
   (claim7_tz_cascade_precedence c7Externals ⟨true, true, true⟩ c7raw).2 rfl
      { tz := "Zone/G", src := "GeolocationTimeZone" } [] rfl⟩

/-- C10: warnings accumulated on a pending call reach the caller only when
the decoded result is an object, attached in place under the `warnings` key;
a non-object result (a string, or a JSON scalar such as the version reply) is
delivered unchanged and the warnings go to the console instead. -/
theorem claim10_warning_delivery (r : PendingReader) (input : String)
    (hw : r.warnings ≠ []) :
    (∀ kvs, r.read input = .ok (.json (.obj kvs)) →
      applyReader r input =
        .ok (.json (.obj (setProp kvs "warnings" (JVal.arr (r.warnings.map JVal.str)))), []))
    ∧ (∀ res, r.read input = .ok res → typeofObject res = false →
      applyReader r input = .ok (res, [.dirWarnings r.warnings])) := by
  have hlen : r.warnings.length > 0 := List.length_pos.mpr hw
  constructor
  · intro kvs hread
    unfold applyReader
    rw [hread]
    simp [hlen, typeofObject, attachWarnings]
  · intro res hread htype
    unfold applyReader
    rw [hread]
    simp [hlen, htype]

/-- C10 (witness): a call with one warning — the object reply `obj` is
delivered with the warnings attached under `warnings`; the plain string reply
`x` is delivered unchanged and the warnings are written to the console. -/
theorem claim10_warning_delivery_witness :
    applyReader { id := 0, read := objReader, warnings := ["warned"] } "obj"
        = .ok (.json (.obj [("a", .num 1), ("warnings", .arr [.str "warned"])]), [])
    ∧ applyReader { id := 0, read := objReader, warnings := ["warned"] } "x"
        = .ok (.str "x", [.dirWarnings ["warned"]]) :=
  ⟨(claim10_warning_delivery { id := 0, read := objReader, warnings := ["warned"] } "obj"
      (by decide)).1 [("a", .num 1)] rfl,
   (claim10_warning_delivery { id := 0, read := objReader, warnings := ["warned"] } "x"
      (by decide)).2 (.str "x") rfl rfl⟩

/-- C2: for every accepted Read reply, the emitted record's `SourceFile` is
the path-resolved requested path; a reply whose declared `SourceFile` does
not resolve to the requested path makes `ReadTask.parse` throw the
protocol-integrity error (the call fails — no record, hence no `warnings` or
`errors` entry, is produced). -/
theorem claim2_sourcefile_integrity (E : Externals) (opts : ROptions) (degroup : Bool)
    (filename : String) (taskErrors : List String) (jsonData : Except String JVal)
    (err : Option String) :
    (∀ rec, readTaskParse E opts degroup (readTaskSourceFile E filename) taskErrors jsonData err
        = .ok rec → rec.sourceFile = readTaskSourceFile E filename)
    ∧ (∀ raw sf resolved,
        jsonIndexZero jsonData = .ok (some raw) →
        propAccess raw "SourceFile" = .ok sf →
        resolveJ E sf = .ok resolved →
        resolved ≠ readTaskSourceFile E filename →
        readTaskParse E opts degroup (readTaskSourceFile E filename) taskErrors jsonData err
          = .error ("Internal error: unexpected SourceFile of " ++ jsToString sf ++
              " for file " ++ readTaskSourceFile E filename)) := by
  constructor
  · intro rec hok
    unfold readTaskParse at hok
    repeat' split at hok
    all_goals simp_all
    exact hok ▸ rfl
  · intro raw sf resolved h1 h2 h3 h4
    unfold readTaskParse
    rw [h1]
    simp only [h2, h3]
    rw [if_pos h4]

/-- C2 (witness): a matching reply for `/a/b.jpg` is accepted and carries
that `SourceFile`; a reply declaring `/other.jpg` fails with the integrity
error. -/
theorem claim2_sourcefile_integrity_witness :
    (parseTags trivialExternals ⟨true, true, false⟩ false "/a/b.jpg" []
        [("SourceFile", JVal.str "/a/b.jpg")]).sourceFile = "/a/b.jpg"
    ∧ readTaskParse trivialExternals ⟨true, true, false⟩ false "/a/b.jpg" []
        (.ok (.arr [.obj [("SourceFile", .str "/other.jpg")]])) none
      = .error ("Internal error: unexpected SourceFile of /other.jpg for file /a/b.jpg") :=
  ⟨(claim2_sourcefile_integrity trivialExternals ⟨true, true, false⟩ false "/a/b.jpg" []
      (.ok (.arr [.obj [("SourceFile", .str "/a/b.jpg")]])) none).1
      (parseTags trivialExternals ⟨true, true, false⟩ false "/a/b.jpg" []
        [("SourceFile", JVal.str "/a/b.jpg")]) rfl,
   (claim2_sourcefile_integrity trivialExternals ⟨true, true, false⟩ false "/a/b.jpg" []
      (.ok (.arr [.obj [("SourceFile", .str "/other.jpg")]])) none).2
      (.obj [("SourceFile", .str "/other.jpg")]) (some (.str "/other.jpg")) "/other.jpg"
      rfl rfl rfl (by decide)⟩

/-- C1: framing of the worker's output stream.  When the trimmed accumulated
text (`this.buff` plus the arriving chunk) does not end with the sentinel, no
pending call is delivered to or settled — only the buffer advances.  When it
does end with the sentinel, exactly the oldest pending call is removed from
the queue and handed exactly the text preceding the sentinel, the buffer is
reset to empty, and — whenever its decode succeeds — it is resolved with the
decoded value of that text. -/
theorem claim1_framing_fifo (st : PState) (chunk : String) :
    (jsEndsWith (jsTrim (st.buff ++ chunk)) readyMarker = false →
      onData st chunk = { st with buff := jsTrim (st.buff ++ chunk) })
    ∧ (∀ r rest, jsEndsWith (jsTrim (st.buff ++ chunk)) readyMarker = true →
        st.queue = r :: rest →
        (onData st chunk).buff = ""
        ∧ (onData st chunk).queue = rest
        ∧ (onData st chunk).delivered =
            st.delivered ++ [(r.id, jsDropRight (jsTrim (st.buff ++ chunk)) readyMarker.length)]
        ∧ ∀ v cs,
            applyReader r (jsDropRight (jsTrim (st.buff ++ chunk)) readyMarker.length) = .ok (v, cs) →
            (onData st chunk).settled = settleOnce st.settled r.id (.resolved v)) := by
  constructor
  · intro h
    unfold onData
    simp [h]
  · intro r rest h hq
    unfold onData
    simp only [h, if_true, hq]
    refine ⟨?_, ?_, ?_, ?_⟩
    · cases happ : applyReader r (jsDropRight (jsTrim (st.buff ++ chunk)) readyMarker.length) with
      | error e => simp [happ]
      | ok vc => simp [happ]
    · cases happ : applyReader r (jsDropRight (jsTrim (st.buff ++ chunk)) readyMarker.length) with
      | error e => simp [happ]
      | ok vc => simp [happ]
    · cases happ : applyReader r (jsDropRight (jsTrim (st.buff ++ chunk)) readyMarker.length) with
      | error e => simp [happ]
      | ok vc => simp [happ]
    · intro v cs happ
      simp [happ]

/-- C1 (witness): a chunk that leaves the buffer without the sentinel changes
only the buffer; a chunk completing the frame `x{ready}` dequeues the single
pending call, delivers it the payload `x`, resets the buffer and resolves it
with the trimmed string `x`. -/
theorem claim1_framing_fifo_witness :
    onData wState1 "tial" = { wState1 with buff := "partial" }
    ∧ (onData wState2 "\x7bready\x7d").buff = ""
    ∧ (onData wState2 "\x7bready\x7d").queue = []
    ∧ (onData wState2 "\x7bready\x7d").delivered = wState2.delivered ++ [(0, "x")]
    ∧ (onData wState2 "\x7bready\x7d").settled
        = settleOnce wState2.settled 0 (.resolved (.str "x")) := by
  have h1 := (claim1_framing_fifo wState1 "tial").1 (by decide)
  have h2 := (claim1_framing_fifo wState2 "\x7bready\x7d").2
    { id := 0, read := stringReader, warnings := [] } [] (by decide) rfl
  exact ⟨h1, h2.1, h2.2.1, h2.2.2.1, h2.2.2.2 (.str "x") [] rfl⟩

theorem lookup_settleOnce_self (l : List (Nat × Settled)) (i : Nat) (s : Settled)
    (h : l.lookup i = none) : (settleOnce l i s).lookup i = some s := by
  unfold settleOnce
  rw [h]
  simp [List.lookup]

theorem lookup_settleOnce_ne (l : List (Nat × Settled)) (i j : Nat) (s : Settled)
    (h : j ≠ i) : (settleOnce l i s).lookup j = l.lookup j := by
  unfold settleOnce
  split
  · rfl
  · have hne : (j == i) = false := beq_eq_false_iff_ne.mpr h
    simp [List.lookup, hne]

theorem settleOnce_keys (l : List (Nat × Settled)) (i : Nat) (s : Settled)
    (p : Nat × Settled) (hp : p ∈ settleOnce l i s) : p = (i, s) ∨ p ∈ l := by
  unfold settleOnce at hp
  split at hp
  · right; exact hp
  · rcases List.mem_cons.1 hp with h | h
    · left; exact h
    · right; exact h

theorem lookup_none_of_keys_lt (l : List (Nat × Settled)) (n i : Nat)
    (hl : ∀ p ∈ l, p.1 < n) (hi : n ≤ i) : l.lookup i = none := by
  induction l with
  | nil => rfl
  | cons p tl ih =>
    obtain ⟨k, b⟩ := p
    have h1 : k < n := hl (k, b) (List.mem_cons_self _ tl)
    have hne : (i == k) = false := beq_eq_false_iff_ne.mpr (by omega)
    simp only [List.lookup, hne]
    exact ih (fun q hq => hl q (List.mem_cons_of_mem _ hq))

theorem closeFold_lookup_preserved (q : List PendingReader) (acc : List (Nat × Settled)) (i : Nat)
    (h : ∀ r ∈ q, r.id ≠ i) :
    (q.foldl (fun a rr => settleOnce a rr.id (.rejected "ExifTool closed")) acc).lookup i
      = acc.lookup i := by
  induction q generalizing acc with
  | nil => rfl
  | cons r0 tl ih =>
    simp only [List.foldl_cons]
    rw [ih _ (fun r hr => h r (List.mem_cons_of_mem r0 hr))]
    exact lookup_settleOnce_ne acc r0.id i _
      (fun he => (h r0 (List.mem_cons_self r0 tl)) he.symm)

theorem closeFold_lookup_rejected (q : List PendingReader) (acc : List (Nat × Settled))
    (hnd : (q.map (fun r => r.id)).Nodup)
    (hun : ∀ r ∈ q, acc.lookup r.id = none) :
    ∀ r ∈ q,
      (q.foldl (fun a rr => settleOnce a rr.id (.rejected "ExifTool closed")) acc).lookup r.id
        = some (.rejected "ExifTool closed") := by
  induction q generalizing acc with
  | nil => intro r hr; exact absurd hr (List.not_mem_nil _)
  | cons r0 tl ih =>
    rw [List.map_cons, List.nodup_cons] at hnd
    intro r hr
    simp only [List.foldl_cons]
    rcases List.mem_cons.1 hr with rfl | hrt
    · rw [closeFold_lookup_preserved tl _ r.id
        (fun rr hrr heq => hnd.1 (heq ▸ List.mem_map_of_mem (fun x => x.id) hrr))]
      exact lookup_settleOnce_self acc r.id _ (hun r (List.mem_cons_self r tl))
    · refine ih _ hnd.2 ?_ r hrt
      intro rr hrr
      rw [lookup_settleOnce_ne acc r0.id rr.id _
        (fun heq => hnd.1 (heq ▸ List.mem_map_of_mem (fun x => x.id) hrr))]
      exact hun rr (List.mem_cons_of_mem r0 hrr)

theorem closeFold_keys_lt (q : List PendingReader) (acc : List (Nat × Settled)) (n : Nat)
    (hq : ∀ r ∈ q, r.id < n) (hacc : ∀ p ∈ acc, p.1 < n) :
    ∀ p ∈ q.foldl (fun a rr => settleOnce a rr.id (.rejected "ExifTool closed")) acc,
      p.1 < n := by
  induction q generalizing acc with
  | nil => exact fun p hp => hacc p hp
  | cons r0 tl ih =>
    intro p hp
    simp only [List.foldl_cons] at hp
    refine ih _ (fun r hr => hq r (List.mem_cons_of_mem r0 hr)) ?_ p hp
    intro p' hp'
    rcases settleOnce_keys acc r0.id _ p' hp' with rfl | hmem
    · exact hq r0 (List.mem_cons_self r0 tl)
    · exact hacc p' hmem

theorem runEv_submits_settled (st : PState) (evs : List Ev)
    (h : ∀ e ∈ evs, ∃ f, e = Ev.submit f) :
    (runEv st evs).settled = st.settled ∧ (runEv st evs).ended = st.ended := by
  induction evs generalizing st with
  | nil => exact ⟨rfl, rfl⟩
  | cons e tl ih =>
    rcases h e (List.mem_cons_self e tl) with ⟨f, rfl⟩
    have hrec := ih (submitCall st f) (fun e' he' => h e' (List.mem_cons_of_mem _ he'))
    simp only [runEv, List.foldl_cons] at hrec ⊢
    exact hrec

theorem PInv_init : PInv initState := by
  refine ⟨?_, ?_, ?_, ?_⟩ <;> simp [initState, PInv]

theorem PInv_submit (st : PState) (f : String → Except String RVal) (h : PInv st) :
    PInv (submitCall st f) := by
  obtain ⟨h1, h2, h3, h4⟩ := h
  refine ⟨?_, ?_, ?_, ?_⟩
  · simp only [submitCall, List.map_append, List.map_cons, List.map_nil]
    refine List.Nodup.append h1 (List.nodup_singleton _) ?_
    intro a ha hb
    rw [List.mem_singleton] at hb
    rcases List.mem_map.1 ha with ⟨r, hr, hid⟩
    have := h2 r hr
    omega
  · intro r hr
    simp only [submitCall] at hr ⊢
    rcases List.mem_append.1 hr with hm | hm
    · have := h2 r hm
      omega
    · rw [List.mem_singleton] at hm
      rw [hm]
      show st.nextId < st.nextId + 1
      omega
  · intro p hp
    simp only [submitCall] at hp ⊢
    have := h3 p hp
    omega
  · intro r hr
    simp only [submitCall] at hr ⊢
    rcases List.mem_append.1 hr with hm | hm
    · exact h4 r hm
    · rw [List.mem_singleton] at hm
      rw [hm]
      exact lookup_none_of_keys_lt st.settled st.nextId st.nextId h3 (Nat.le_refl _)

theorem PInv_onError (st : PState) (e : String) (h : PInv st) : PInv (onError st e) := by
  obtain ⟨h1, h2, h3, h4⟩ := h
  unfold onError
  split
  · exact ⟨h1, h2, h3, h4⟩
  · rename_i r rest hq
    rw [hq] at h1 h2 h4
    simp only [List.map_cons, List.nodup_cons] at h1
    refine ⟨?_, ?_, h3, ?_⟩
    · simp only [List.map_cons, List.nodup_cons]
      exact h1
    · intro r' hr'
      rcases List.mem_cons.1 hr' with rfl | hm
      · exact h2 r (List.mem_cons_self r rest)
      · exact h2 r' (List.mem_cons_of_mem r hm)
    · intro r' hr'
      rcases List.mem_cons.1 hr' with rfl | hm
      · exact h4 r (List.mem_cons_self r rest)
      · exact h4 r' (List.mem_cons_of_mem r hm)

theorem PInv_onData (st : PState) (c : String) (h : PInv st) : PInv (onData st c) := by
  obtain ⟨h1, h2, h3, h4⟩ := h
  unfold onData
  by_cases hend : jsEndsWith (jsTrim (st.buff ++ c)) readyMarker = true
  · rw [if_pos hend]
    split
    · exact ⟨h1, h2, h3, h4⟩
    · rename_i r rest hq
      rw [hq] at h1 h2 h4
      simp only [List.map_cons, List.nodup_cons] at h1
      have hrest2 : ∀ r' ∈ rest, r'.id < st.nextId :=
        fun r' hm => h2 r' (List.mem_cons_of_mem r hm)
      have hrest4 : ∀ r' ∈ rest, st.settled.lookup r'.id = none :=
        fun r' hm => h4 r' (List.mem_cons_of_mem r hm)
      dsimp only
      split
      · exact ⟨h1.2, hrest2, h3, hrest4⟩
      · rename_i vc v cs
        refine ⟨h1.2, hrest2, ?_, ?_⟩
        · intro p hp
          rcases settleOnce_keys st.settled r.id _ p hp with rfl | hm
          · exact h2 r (List.mem_cons_self r rest)
          · exact h3 p hm
        · intro r' hr'
          rw [lookup_settleOnce_ne st.settled r.id r'.id _
            (fun heq => h1.1 (heq ▸ List.mem_map_of_mem (fun x => x.id) hr'))]
          exact hrest4 r' hr'
  · rw [if_neg hend]
    exact ⟨h1, h2, h3, h4⟩

theorem PInv_runEv (st : PState) (evs : List Ev) (h : PInv st) (hc : Ev.close ∉ evs) :
    PInv (runEv st evs) := by
  induction evs generalizing st with
  | nil => exact h
  | cons e tl ih =>
    have he : e ≠ Ev.close := fun heq => hc (heq ▸ List.mem_cons_self e tl)
    have hstep : PInv (stepEv st e) := by
      cases e with
      | submit f => exact PInv_submit st f h
      | data c => exact PInv_onData st c h
      | errData c => exact PInv_onError st c h
      | close => exact absurd rfl he
    have htl : Ev.close ∉ tl := fun hm => hc (List.mem_cons_of_mem e hm)
    simp only [runEv, List.foldl_cons]
    exact ih (stepEv st e) hstep htl

/-- C3: when the worker process exits (`close` event), every call still
pending at that instant is rejected with the worker-terminated reason
`ExifTool closed`; the supervisor's `_ended` flag is set (and stays set); and
no call submitted after the exit is ever completed — in any continuation
consisting of further submissions (Node delivers no stream events after
`close`), every id issued after the exit remains unsettled, so such a call
can never succeed. -/
theorem claim3_worker_termination (pre post : List Ev)
    (hpre : Ev.close ∉ pre)
    (hpost : ∀ e ∈ post, ∃ f, e = Ev.submit f) :
    (runEv initState (pre ++ Ev.close :: post)).ended = true
    ∧ (∀ r ∈ (runEv initState pre).queue,
        (runEv initState (pre ++ Ev.close :: post)).settled.lookup r.id
          = some (.rejected "ExifTool closed"))
    ∧ (∀ i, (runEv initState pre).nextId ≤ i →
        (runEv initState (pre ++ Ev.close :: post)).settled.lookup i = none) := by
  have hsplit : runEv initState (pre ++ Ev.close :: post)
      = runEv (onClose (runEv initState pre)) post := by
    simp only [runEv, List.foldl_append, List.foldl_cons, stepEv]
  obtain ⟨h1, h2, h3, h4⟩ := PInv_runEv initState pre PInv_init hpre
  have hsub := runEv_submits_settled (onClose (runEv initState pre)) post hpost
  refine ⟨?_, ?_, ?_⟩
  · rw [hsplit, hsub.2]
    rfl
  · intro r hr
    rw [hsplit, hsub.1]
    exact closeFold_lookup_rejected (runEv initState pre).queue
      (runEv initState pre).settled h1 h4 r hr
  · intro i hi
    rw [hsplit, hsub.1]
    exact lookup_none_of_keys_lt _ (runEv initState pre).nextId i
      (closeFold_keys_lt (runEv initState pre).queue (runEv initState pre).settled
        (runEv initState pre).nextId h2 h3) hi

/-- C3 (witness): one call pending before the exit, one submitted after. -/
theorem claim3_worker_termination_witness :
    (runEv initState ([Ev.submit stringReader] ++ Ev.close :: [Ev.submit stringReader])).ended = true
    ∧ (∀ r ∈ (runEv initState [Ev.submit stringReader]).queue,
        (runEv initState ([Ev.submit stringReader] ++ Ev.close :: [Ev.submit stringReader])).settled.lookup r.id
          = some (.rejected "ExifTool closed"))
    ∧ (∀ i, (runEv initState [Ev.submit stringReader]).nextId ≤ i →
        (runEv initState ([Ev.submit stringReader] ++ Ev.close :: [Ev.submit stringReader])).settled.lookup i
          = none) :=
  claim3_worker_termination [Ev.submit stringReader] [Ev.submit stringReader]
    (by intro hm; rw [List.mem_singleton] at hm; exact Ev.noConfusion hm)
    (by intro e he; rw [List.mem_singleton] at he; exact ⟨stringReader, he⟩)

theorem zeroUnsettled_step (st : PState) (e : Ev)
    (h : st.settled.lookup 0 = none ∧ (∀ r ∈ st.queue, r.id ≠ 0) ∧ 1 ≤ st.nextId) :
    (stepEv st e).settled.lookup 0 = none
    ∧ (∀ r ∈ (stepEv st e).queue, r.id ≠ 0)
    ∧ 1 ≤ (stepEv st e).nextId := by
  obtain ⟨h1, h2, h3⟩ := h
  cases e with
  | submit f =>
    refine ⟨h1, ?_, by simp only [stepEv, submitCall]; omega⟩
    intro r hr
    simp only [stepEv, submitCall] at hr
    rcases List.mem_append.1 hr with hm | hm
    · exact h2 r hm
    · rw [List.mem_singleton] at hm
      rw [hm]
      show st.nextId ≠ 0
      omega
  | data c =>
    simp only [stepEv]
    unfold onData
    by_cases hend : jsEndsWith (jsTrim (st.buff ++ c)) readyMarker = true
    · rw [if_pos hend]
      split
      · exact ⟨h1, h2, h3⟩
      · rename_i r rest hq
        rw [hq] at h2
        have hr0 : r.id ≠ 0 := h2 r (List.mem_cons_self r rest)
        have hrest : ∀ r' ∈ rest, r'.id ≠ 0 :=
          fun r' hm => h2 r' (List.mem_cons_of_mem r hm)
        dsimp only
        split
        · exact ⟨h1, hrest, h3⟩
        · refine ⟨?_, hrest, h3⟩
          rw [lookup_settleOnce_ne st.settled r.id 0 _ (fun he => hr0 he.symm)]
          exact h1
    · rw [if_neg hend]
      exact ⟨h1, h2, h3⟩
  | errData c =>
    simp only [stepEv]
    unfold onError
    split
    · exact ⟨h1, h2, h3⟩
    · rename_i r rest hq
      rw [hq] at h2
      refine ⟨h1, ?_, h3⟩
      intro r' hr'
      rcases List.mem_cons.1 hr' with rfl | hm
      · exact h2 r (List.mem_cons_self r rest)
      · exact h2 r' (List.mem_cons_of_mem r hm)
  | close =>
    simp only [stepEv]
    unfold onClose
    refine ⟨?_, h2, h3⟩
    rw [closeFold_lookup_preserved st.queue st.settled 0 h2]
    exact h1

theorem zeroUnsettled_run (st : PState) (evs : List Ev)
    (h : st.settled.lookup 0 = none ∧ (∀ r ∈ st.queue, r.id ≠ 0) ∧ 1 ≤ st.nextId) :
    (runEv st evs).settled.lookup 0 = none
    ∧ (∀ r ∈ (runEv st evs).queue, r.id ≠ 0)
    ∧ 1 ≤ (runEv st evs).nextId := by
  induction evs generalizing st with
  | nil => exact h
  | cons e tl ih =>
    simp only [runEv, List.foldl_cons]
    exact ih (stepEv st e) (zeroUnsettled_step st e h)

/-- C4: the code cannot keep the resumed-exactly-once guarantee when the
decode function raises.  In the failing scenario `c4trace` — one pending
metadata call whose decode raises (as `JSON.parse` does on the non-JSON
payload `not-json`) — the complete frame `not-json{ready}` is delivered to
the call, the call is removed from the queue, and yet its promise is never
settled: after any continuation of events whatsoever its completion slot is
still empty, because `DeferredReader.apply` computes `this.reader(input)`
before `this._resolve`, without a catch, so the exception escapes
`onData` and neither `_resolve` nor `_reject` ever runs.  The claim (and the
spec's "Decode error ... propagated as a failure of that call") describes
the intended behavior; the code drops the call instead. -/
theorem claim4_decode_exception_never_settles :
    (runEv initState c4trace).delivered = [(0, "not-json")]
    ∧ (runEv initState c4trace).queue = []
    ∧ ∀ post : List Ev, (runEv (runEv initState c4trace) post).settled.lookup 0 = none := by
  refine ⟨rfl, rfl, ?_⟩
  intro post
  have base : (runEv initState c4trace).settled.lookup 0 = none
      ∧ (∀ r ∈ (runEv initState c4trace).queue, r.id ≠ 0)
      ∧ 1 ≤ (runEv initState c4trace).nextId := by
    refine ⟨rfl, ?_, ?_⟩
    · intro r hr
      have hq : (runEv initState c4trace).queue = [] := rfl
      rw [hq] at hr
      exact absurd hr (List.not_mem_nil _)
    · show 1 ≤ 1
      omega
  exact (zeroUnsettled_run (runEv initState c4trace) post base).1

/-- C6 (counterexample): the claim says the null-ish sentinels are matched in
any letter case, but `nullish` uses the case-sensitive
`NullIsh.includes(s.trim())`: the raw value `NULL` (upper-case `null`) is not
null-ish, and the decoded record keeps an entry for the tag instead of
dropping it. -/
theorem claim6_nullish_counterexample :
    nullish (.str "NULL") = false
    ∧ (parseTags trivialExternals ⟨true, true, false⟩ false "f" []
        [("Foo", JVal.str "NULL")]).tags
      = [("Foo", PVal.raw (JVal.str "NULL"))] := by
  refine ⟨by decide, ?_⟩
  simp only [parseTags, List.foldl, tagsStep, parseTag_str]
  rfl

/-- C6 (amended): for every scalar leaf whose raw string value is exactly
`undef`, `null` or `undefined` in lower case — after trimming surrounding
whitespace — the decoded record contains no entry for that tag and the leaf
parse records no warning (it returns the warnings list unchanged).  The match
is whitespace-insensitive but case-sensitive. -/
theorem claim6_nullish_amended (E : Externals) (opts : ROptions) (degroup : Bool)
    (sf : String) (errs : List String) (raw : List (String × JVal)) (k s : String)
    (hmem : (k, JVal.str s) ∈ raw)
    (hnodup : (raw.map Prod.fst).Nodup)
    (hnull : NullIsh.contains (jsTrim s) = true) :
    (∀ p ∈ (parseTags E opts degroup sf errs raw).tags, p.1 ≠ k)
    ∧ (∀ (c : RCtx) (t : String) (w : List String), parseTag c t (.str s) w = (none, w)) := by
  have hns : nullish (.str s) = true := hnull
  have hpt : ∀ (c : RCtx) (t : String) (w : List String), parseTag c t (.str s) w = (none, w) :=
    fun c t w => parseTag_nullish c t _ w hns
  refine ⟨?_, hpt⟩
  have htags : (parseTags E opts degroup sf errs raw).tags =
      (raw.foldl (tagsStep (mkRCtx E opts (if degroup then degroupEntries raw else raw)) degroup)
        ([], (extractTzOffset E opts (if degroup then degroupEntries raw else raw)).2)).1 := rfl
  rw [htags]
  refine tagsStep_fold_prop _ degroup (fun key => key ≠ k) raw _ _
    (fun p hp => absurd hp (List.not_mem_nil _)) ?_
  intro kv hkv
  obtain ⟨k1, v1⟩ := kv
  by_cases hk : k1 = k
  · subst hk
    have hval : v1 = JVal.str s := nodup_keys_unique raw hnodup k1 v1 (JVal.str s) hkv hmem
    left
    intro w'
    simp only [hval, hpt]
  · right
    exact hk

/-- C6 (witness): the leaf ` null ` (lower case, surrounding whitespace) is
dropped from the record, and the leaf parse adds no warning. -/
theorem claim6_nullish_amended_witness :
    (∀ p ∈ (parseTags trivialExternals ⟨true, true, false⟩ false "f" []
        [("Foo", JVal.str " null ")]).tags, p.1 ≠ "Foo")
    ∧ (∀ (c : RCtx) (t : String) (w : List String),
        parseTag c t (.str " null ") w = (none, w)) :=
  claim6_nullish_amended trivialExternals ⟨true, true, false⟩ false "f" []
    [("Foo", JVal.str " null ")] "Foo" " null "
    (List.mem_singleton.mpr rfl) (by simp) (by decide)

/-- C8: when the GPS extraction flags the coordinates invalid, the decoded
record contains no tag whose degrouped name starts with `GPS` or
`Geolocation` — every such tag decodes to absent instead of a degenerate
reading. -/
theorem claim8_gps_invalid_suppression (E : Externals) (opts : ROptions) (degroup : Bool)
    (sf : String) (errs : List String) (raw : List (String × JVal)) (meta : GPSMeta)
    (hmeta : E.parseGPSLocation (if degroup then degroupEntries raw else raw) opts = some meta)
    (hinv : meta.invalid = true) :
    ∀ p ∈ (parseTags E opts degroup sf errs raw).tags,
      jsStartsWith (tagNameOf degroup p.1) "GPS" = false
      ∧ jsStartsWith (tagNameOf degroup p.1) "Geolocation" = false := by
  have hctx : (mkRCtx E opts (if degroup then degroupEntries raw else raw)).gpsInvalid = true := by
    simp [mkRCtx, hmeta, hinv]
  have htags : (parseTags E opts degroup sf errs raw).tags =
      (raw.foldl (tagsStep (mkRCtx E opts (if degroup then degroupEntries raw else raw)) degroup)
        ([], (extractTzOffset E opts (if degroup then degroupEntries raw else raw)).2)).1 := rfl
  rw [htags]
  refine tagsStep_fold_prop _ degroup
    (fun key => jsStartsWith (tagNameOf degroup key) "GPS" = false
      ∧ jsStartsWith (tagNameOf degroup key) "Geolocation" = false) raw _ _
    (fun p hp => absurd hp (List.not_mem_nil _)) ?_
  intro kv hkv
  by_cases hg : jsStartsWith (tagNameOf degroup kv.1) "GPS" = true
      ∨ jsStartsWith (tagNameOf degroup kv.1) "Geolocation" = true
  · left
    intro w'
    rw [parseTag_gps_invalid _ _ _ _ hctx hg]
  · right
    simp only [not_or, Bool.not_eq_true] at hg
    exact hg

/-- C8 (witness): with collaborators whose GPS extraction is invalid, a
record carrying `GPSLatitude` and `Make` keeps only `Make` — the one entry
surviving in the decoded tags is `Make`, and (by the theorem at that concrete
record and entry) its name starts with neither `GPS` nor `Geolocation`. -/
theorem claim8_gps_invalid_suppression_witness :
    (parseTags gpsInvalidExternals ⟨true, true, false⟩ false "f" []
        [("GPSLatitude", JVal.str "0"), ("Make", JVal.str "X")]).tags
      = [("Make", PVal.raw (JVal.str "X"))]
    ∧ (jsStartsWith (tagNameOf false "Make") "GPS" = false
       ∧ jsStartsWith (tagNameOf false "Make") "Geolocation" = false) := by
  have htags : (parseTags gpsInvalidExternals ⟨true, true, false⟩ false "f" []
      [("GPSLatitude", JVal.str "0"), ("Make", JVal.str "X")]).tags
      = [("Make", PVal.raw (JVal.str "X"))] := by
    simp only [parseTags, List.foldl, tagsStep, parseTag_str]
    rfl
  have hmem : ("Make", PVal.raw (JVal.str "X")) ∈ (parseTags gpsInvalidExternals
      ⟨true, true, false⟩ false "f" []
      [("GPSLatitude", JVal.str "0"), ("Make", JVal.str "X")]).tags := by
    rw [htags]
    exact List.mem_singleton.mpr rfl
  exact ⟨htags, claim8_gps_invalid_suppression gpsInvalidExternals ⟨true, true, false⟩ false "f" []
    [("GPSLatitude", JVal.str "0"), ("Make", JVal.str "X")]
    { invalid := true, result := [] } rfl rfl _ hmem⟩

/-- C9 (counterexample): the claim omits the `backfillTimezones` guard.  With
`backfillTimezones` disabled but every condition of the claim holding — video
defaulted to UTC, a zoneless `CreateDate` decoded with an inferred zone, the
tag not inherently UTC, and the cascade producing `Asia/Tokyo` — the returned
value keeps zone `UTC` and is not rewritten into the cascade's zone. -/
theorem claim9_backfill_counterexample :
    (parseTags c9Externals ⟨false, true, false⟩ false "f" [] c9raw).tz = some "Asia/Tokyo"
    ∧ (parseTags c9Externals ⟨false, true, false⟩ false "f" [] c9raw).tags.lookup "CreateDate"
        = some (.dateTime { instant := 0, zone := some "UTC", inferredZone := true })
    ∧ ({ instant := 0, zone := some "UTC", inferredZone := true } : ExifDateTime).zone
        ≠ some "Asia/Tokyo" := by
  refine ⟨rfl, ?_, by decide⟩
  simp only [parseTags, c9raw, List.foldl, tagsStep, parseTag_str]
  rfl

/-- C9 (amended): when additionally `backfillTimezones` is enabled — and the
other conditions of the claim hold: the file defaults to UTC, the tag is not
inherently UTC, the cascade produced a zone, and the decoded date-time's zone
was only inferred — the returned value is rewritten into the cascade's zone
via `setZone`, which preserves the absolute instant and changes only the
display zone (`setZone` is modelled from the spec). -/
theorem claim9_backfill_amended (E : Externals) (opts : ROptions)
    (rawD : List (String × JVal)) (t s : String) (w : List String)
    (dt : ExifDateTime) (tz0 : TzSrc)
    (hback : opts.backfillTimezones = true)
    (hutc : defaultToUTCFlag opts rawD = true)
    (hnotUtc : isUtcTagName t = false)
    (hgeo : jsStartsWith t "Geolocation" = false)
    (hpass : PassthroughTags.contains t = false)
    (hcascade : (extractTzOffset E opts rawD).1 = some tz0)
    (hnn : nullish (.str s) = false)
    (hbin : E.binaryFromRawValue s = .ok none)
    (hvalid : jsEndsWith t "Valid" = false)
    (hmaybe : maybeDateOrTime t = true)
    (hzeros : onlyZeros s = false)
    (hkey : (includesTime t || includesDate t || includesWhen t) = true)
    (hfrom : E.exifDateTimeFrom s (some "UTC") = .ok (some dt))
    (hinf : dt.inferredZone = true) :
    parseTag (mkRCtx E opts rawD) t (.str s) w = (some (.dateTime (dt.setZone tz0.tz)), w)
    ∧ (dt.setZone tz0.tz).instant = dt.instant
    ∧ (dt.setZone tz0.tz).zone = some tz0.tz := by
  have hgps : jsStartsWith t "GPS" = false := by
    have h := hnotUtc
    simp only [isUtcTagName, Bool.or_eq_false_iff] at h
    exact h.2
  have hE : (mkRCtx E opts rawD).E = E := rfl
  have hopts : (mkRCtx E opts rawD).opts = opts := rfl
  have hdef : (mkRCtx E opts rawD).defUTC = true := hutc
  have htz : (mkRCtx E opts rawD).tzVal = some tz0.tz := by
    simp [mkRCtx, hcascade]
  have hleaf : parseStringLeaf (mkRCtx E opts rawD) t s
      = .ok (some (.dateTime (dt.setZone tz0.tz))) := by
    unfold parseStringLeaf
    rw [hE, hbin]
    simp only [hvalid, Bool.false_eq_true, if_false, hmaybe, hzeros, Bool.not_false,
      Bool.and_self, if_true, hnotUtc, hdef, Bool.false_or, Bool.or_true, hkey, hopts, hback,
      Bool.true_and, Bool.and_true, hinf, htz]
    rw [hfrom]
    simp [hinf]
  refine ⟨?_, rfl, rfl⟩
  rw [parseTag_str]
  rw [if_neg (by rw [hnn]; exact Bool.false_ne_true)]
  rw [if_neg (by rw [hpass]; exact Bool.false_ne_true)]
  rw [if_neg (by rw [hgps, hgeo]; simp)]
  have hsub : gpsSubstituted (mkRCtx E opts rawD) t = none := by
    unfold gpsSubstituted
    rw [hgps, hgeo]
    simp
  rw [hsub, hleaf]
  rfl

/-- C9 (amended, witness): the backfill scenario of `c9Externals` with
`backfillTimezones` enabled — the zoneless video `CreateDate` is rewritten
into the cascade's `Asia/Tokyo` zone, preserving the instant. -/
theorem claim9_backfill_amended_witness :
    parseTag (mkRCtx c9Externals ⟨true, true, false⟩ c9raw) "CreateDate"
        (.str "2020:01:01 10:00:00") []
      = (some (.dateTime (ExifDateTime.setZone
          { instant := 0, zone := some "UTC", inferredZone := true } "Asia/Tokyo")), [])
    ∧ (ExifDateTime.setZone { instant := 0, zone := some "UTC", inferredZone := true }
        "Asia/Tokyo").instant = 0
    ∧ (ExifDateTime.setZone { instant := 0, zone := some "UTC", inferredZone := true }
        "Asia/Tokyo").zone = some "Asia/Tokyo" := by
  have h := claim9_backfill_amended c9Externals ⟨true, true, false⟩ c9raw "CreateDate"
    "2020:01:01 10:00:00" [] { instant := 0, zone := some "UTC", inferredZone := true }
    { tz := "Asia/Tokyo", src := "OffsetTimeOriginal" }
    rfl (by decide) (by decide) (by decide) (by decide) rfl (by decide) rfl (by decide)
    (by decide) (by decide) (by decide) rfl rfl
  exact ⟨h.1, h.2.1, h.2.2⟩
